import Mathlib

/-!
# TestShooter: the gameplay state machine of `ATestShooterCharacter`

A shallow embedding of `Source/TestShooter/TestShooterCharacter.cpp`.

* The gameplay members of the class are the fields of `State`.
* Every handler is a function from the state before the call to the state after
  it together with the list of engine requests it issued, in program order
  (`Effect`: timers, multicast RPCs, the line trace, `ApplyDamage`).
* `int32` members are integers; the one place where `int32` arithmetic can leave
  the range (`HP - (int32)Damage`) wraps modulo `2 ^ 32`.
* `float` values are exact rationals.
* What the engine supplies to a handler (the world, the result of the line
  trace, the random draw, `HasAuthority()`) is an argument of the handler.
* The engine runs these handlers on an actor that belongs to a world; the calls
  `GetWorld()->GetTimerManager().SetTimer(...)` of lines 104 and 276 are recorded as
  `Effect.SetTimer` requests.
* `Server_Shoot_Implementation` tests `GetWorld()` at line 210, so there the world is an
  argument that may be null. The call of line 239 does not test it: with a null world the
  handler ends at that dereference, which `Outcome.nullDeref` records, and a sequence of
  events ends with it.
-/

namespace TestShooter

/-! ## Machine integers -/

/-- Smallest `int32`. -/
def INT32_MIN : Int := -2147483648

/-- Largest `int32`. -/
def INT32_MAX : Int := 2147483647

/-- The value is representable as an `int32`. -/
def inInt32 (x : Int) : Prop := INT32_MIN ≤ x ∧ x ≤ INT32_MAX

instance (x : Int) : Decidable (inInt32 x) := by
  unfold inInt32; exact inferInstance

/-- Two's complement reduction of an integer to `int32`. -/
def wrapInt32 (x : Int) : Int := (x + 2147483648) % 4294967296 - 2147483648

/-- Truncation of a rational toward zero. -/
def truncToZero (q : ℚ) : Int := Int.tdiv q.num q.den

/-- The conversion `(int32)Damage` of line 98: truncation toward zero. A value whose
truncation is not an `int32` has no defined conversion in C++; it is given the
result of the x86 conversion instruction, `0x80000000`. -/
def castInt32 (q : ℚ) : Int :=
  if inInt32 (truncToZero q) then truncToZero q else INT32_MIN

/-! ## Data model -/

/-- The sounds a character can play: its three sound members (`TestShooterCharacter.h`,
lines 87-94) and any other asset handed to `Server_PlaySound`. -/
inductive Sound where
  | ShootSound
  | NoAmmoSound
  | ReloadWeaponSound
  | Asset (id : Nat)
  deriving DecidableEq

/-- The timer handles of the class (`TestShooterCharacter.h`, lines 60-62). -/
inductive TimerHandle where
  | RespawnTimerHandle
  | CanShootTimerHandle
  | CanReloadWeaponTimerHandle
  deriving DecidableEq

/-- The member functions used as timer callbacks (`TestShooterCharacter.h`, lines 167-169). -/
inductive Callback where
  | OnRespawnTimerEnd
  | OnCanShootTimerEnd
  | OnCanReloadWeaponTimerEnd
  deriving DecidableEq

/-- An actor a line trace can return. The trace of `Server_Shoot_Implementation` never
returns the shooter (`Params.AddIgnoredActor(this)`, line 217), so an actor here is
always another actor, named by an identifier. -/
inductive Actor where
  | TestShooterCharacter (id : Nat)
  | Other (id : Nat)
  deriving DecidableEq

/-- The engine requests a handler issues. -/
inductive Effect where
  | SetTimer (Handle : TimerHandle) (Function : Callback) (Rate : ℚ) (bLoop : Bool)
  | Multicast_Death
  | Multicast_PlaySound (s : Sound)
  | LineTraceSingleByChannel
  | ApplyDamage (DamagedActor : Nat) (BaseDamage : Int)
  | Multicast_Shoot
  | RespawnPlayer
  deriving DecidableEq

/-- The gameplay members of `ATestShooterCharacter` (`TestShooterCharacter.h`,
lines 56-58 and 66-85). -/
structure State where
  bCanReloadWeapon : Bool
  bCanShoot : Bool
  bJumping : Bool
  bDead : Bool
  PlayerName : String
  Ammo : Int
  MaxAmmo : Int
  HP : Int
  TimeBeforeRespawn : ℚ
  deriving DecidableEq

/-- What `GetWorld()` gives `Server_Shoot_Implementation`: the actor returned by
`HitResult.GetActor()` after the line trace (`none` when nothing was hit) and the raw
draw behind `FMath::RandRange`. -/
structure UWorld where
  HitActor : Option Actor
  RandDraw : Nat
  deriving DecidableEq

/-- What one call of `Server_Shoot_Implementation` did: the members and the requests issued
when the call ended, and whether it ended at line 239 on the dereference of a null
`GetWorld()` instead of returning. -/
structure Outcome where
  state : State
  out : List Effect
  nullDeref : Bool
  deriving DecidableEq

/-- The engine function `FMath::RandHelper(A)`, which is not part of this repository: an
integer of `[0, A - 1]` when `A > 0`, and `0` otherwise. The raw draw is an argument. -/
def RandHelper (A : Int) (draw : Nat) : Int :=
  if 0 < A then (draw : Int) % A else 0

/-- The engine function `FMath::RandRange(Min, Max)`, which is not part of this repository:
`Min + RandHelper(Max - Min + 1)`, an integer of the closed range `[Min, Max]`. -/
def RandRange (Min Max : Int) (draw : Nat) : Int :=
  Min + RandHelper (Max - Min + 1) draw

/-- The cast `Cast<ATestShooterCharacter>(HitResult.GetActor())` of line 223. -/
def CastCharacter : Option Actor → Option Nat
  | some (Actor.TestShooterCharacter id) => some id
  | _ => none

/-! ## Handlers -/

/-- The object as the engine hands it to `BeginPlay`: zero-filled memory with the
in-class initialisers `MaxAmmo = 10` and `HP = 100` (`TestShooterCharacter.h`,
lines 79 and 82). -/
def constructed : State :=
  { bCanReloadWeapon := false, bCanShoot := false, bJumping := false, bDead := false,
    PlayerName := "", Ammo := 0, MaxAmmo := 10, HP := 100, TimeBeforeRespawn := 0 }

/-- `ATestShooterCharacter::BeginPlay`, lines 87-91. -/
def BeginPlay (s : State) : State :=
  let s := { s with MaxAmmo := 10 }
  let s := { s with Ammo := s.MaxAmmo }
  let s := { s with HP := 100 }
  let s := { s with bCanShoot := true }
  { s with bCanReloadWeapon := true }

/-- `ATestShooterCharacter::OnTakeAnyDamageHandler`, lines 96-107. The timer is set with
the rate `TimeBeforeRespawn`, assigned on the line before. -/
def OnTakeAnyDamageHandler (s : State) (Damage : ℚ) : State × List Effect :=
  let s := { s with HP := max (wrapInt32 (s.HP - castInt32 Damage)) 0 }
  if s.HP ≤ 0 then
    let s := { s with bDead := true }
    let s := { s with TimeBeforeRespawn := 3 }
    (s, [Effect.SetTimer TimerHandle.RespawnTimerHandle Callback.OnRespawnTimerEnd
           s.TimeBeforeRespawn false,
         Effect.Multicast_Death])
  else
    (s, [])

/-- `ATestShooterCharacter::Tick`, lines 119-125. `HasAuthority()` is an argument. -/
def Tick (s : State) (HasAuthority : Bool) (DeltaSeconds : ℚ) : State :=
  if HasAuthority && s.bDead && decide (s.TimeBeforeRespawn > 0) then
    let s := { s with TimeBeforeRespawn := s.TimeBeforeRespawn - DeltaSeconds }
    { s with TimeBeforeRespawn := max s.TimeBeforeRespawn 0 }
  else
    s

/-- `ATestShooterCharacter::Server_Shoot_Implementation`, lines 198-240. `World` is the
result of `GetWorld()`, `none` for a null pointer. Line 210 tests it; line 239 calls
`GetWorld()->GetTimerManager()` without a test, so with a null world the call ends there,
after `bCanShoot = false` and before any timer is set. `--Ammo` runs only when `Ammo > 0`,
where it cannot leave the `int32` range. -/
def Server_Shoot_Implementation (s : State) (World : Option UWorld) : Outcome :=
  if s.bDead || !s.bCanShoot then
    { state := s, out := [], nullDeref := false }
  else
    let r : State × List Effect :=
      if s.Ammo > 0 then
        let s := { s with Ammo := s.Ammo - 1 }
        let out := [Effect.Multicast_PlaySound Sound.ShootSound]
        match World with
        | some w =>
          let out := out ++ [Effect.LineTraceSingleByChannel]
          let out :=
            match CastCharacter w.HitActor with
            | some HitActor => out ++ [Effect.ApplyDamage HitActor (RandRange 5 10 w.RandDraw)]
            | none => out
          (s, out ++ [Effect.Multicast_Shoot])
        | none => (s, out)
      else
        (s, [Effect.Multicast_PlaySound Sound.NoAmmoSound])
    let s := { r.1 with bCanShoot := false }
    match World with
    | some _ =>
      { state := s,
        out := r.2 ++ [Effect.SetTimer TimerHandle.CanShootTimerHandle
                         Callback.OnCanShootTimerEnd (1 / 5) false],
        nullDeref := false }
    | none => { state := s, out := r.2, nullDeref := true }

/-- `ATestShooterCharacter::Server_PlaySound_Implementation`, lines 252-255. -/
def Server_PlaySound_Implementation (s : State) (x : Sound) : State × List Effect :=
  (s, [Effect.Multicast_PlaySound x])

/-- `ATestShooterCharacter::Server_ReloadWeapon_Implementation`, lines 267-278. -/
def Server_ReloadWeapon_Implementation (s : State) : State × List Effect :=
  if s.bCanReloadWeapon then
    let s := { s with Ammo := s.MaxAmmo }
    let s := { s with bCanReloadWeapon := false }
    (s, [Effect.Multicast_PlaySound Sound.ReloadWeaponSound,
         Effect.SetTimer TimerHandle.CanReloadWeaponTimerHandle
           Callback.OnCanReloadWeaponTimerEnd 1 false])
  else
    (s, [])

/-- `ATestShooterCharacter::Server_ChangePlayerName_Implementation`, lines 285-288. -/
def Server_ChangePlayerName_Implementation (s : State) (NewName : String) : State :=
  { s with PlayerName := NewName }

/-- `ATestShooterCharacter::OnRespawnTimerEnd`, lines 290-299. `GameMode` tells whether the
world exists and its authoritative game mode is an `ATestShooterGameMode`. -/
def OnRespawnTimerEnd (s : State) (GameMode : Bool) : State × List Effect :=
  if GameMode then (s, [Effect.RespawnPlayer]) else (s, [])

/-- `ATestShooterCharacter::OnCanShootTimerEnd`, lines 301-304. -/
def OnCanShootTimerEnd (s : State) : State :=
  { s with bCanShoot := true }

/-- `ATestShooterCharacter::OnCanReloadWeaponTimerEnd`, lines 306-309. -/
def OnCanReloadWeaponTimerEnd (s : State) : State :=
  { s with bCanReloadWeapon := true }

/-- `ATestShooterCharacter::OnJumped_Implementation`, lines 311-314. -/
def OnJumped_Implementation (s : State) : State :=
  { s with bJumping := true }

/-- `ATestShooterCharacter::Landed`, lines 316-319. -/
def Landed (s : State) : State :=
  { s with bJumping := false }

/-! ## Sequences of events -/

/-- The calls the engine can make on a character after `BeginPlay`, each with the
arguments the engine supplies. -/
inductive Event where
  | Server_Shoot (World : Option UWorld)
  | Server_ReloadWeapon
  | OnCanShootTimerEnd
  | OnCanReloadWeaponTimerEnd
  | OnTakeAnyDamage (Damage : ℚ)
  | Tick (HasAuthority : Bool) (DeltaSeconds : ℚ)
  | Server_ChangePlayerName (NewName : String)
  | Server_PlaySound (x : Sound)
  | OnRespawnTimerEnd (GameMode : Bool)
  | OnJumped
  | Landed
  deriving DecidableEq

/-- The state after one event; for a `Server_Shoot` that ends on the null dereference of
line 239, the state at that point. -/
def step (s : State) : Event → State
  | Event.Server_Shoot World => (Server_Shoot_Implementation s World).state
  | Event.Server_ReloadWeapon => (Server_ReloadWeapon_Implementation s).1
  | Event.OnCanShootTimerEnd => OnCanShootTimerEnd s
  | Event.OnCanReloadWeaponTimerEnd => OnCanReloadWeaponTimerEnd s
  | Event.OnTakeAnyDamage Damage => (OnTakeAnyDamageHandler s Damage).1
  | Event.Tick HasAuthority DeltaSeconds => Tick s HasAuthority DeltaSeconds
  | Event.Server_ChangePlayerName NewName => Server_ChangePlayerName_Implementation s NewName
  | Event.Server_PlaySound x => (Server_PlaySound_Implementation s x).1
  | Event.OnRespawnTimerEnd GameMode => (OnRespawnTimerEnd s GameMode).1
  | Event.OnJumped => OnJumped_Implementation s
  | Event.Landed => Landed s

/-- The event, in state `s`, ends on the null dereference of line 239. -/
def crashes (s : State) : Event → Bool
  | Event.Server_Shoot World => (Server_Shoot_Implementation s World).nullDeref
  | _ => false

/-- The state after a sequence of events, first event first. An event that ends on the null
dereference of line 239 is the last one to run. -/
def run (s : State) : List Event → State
  | [] => s
  | e :: es => if crashes s e then step s e else run (step s e) es

/-- The event is a `Server_Shoot` that takes a round out of the magazine in state `s`. -/
def consumesAmmo (s : State) : Event → Bool
  | Event.Server_Shoot World =>
    decide ((Server_Shoot_Implementation s World).state.Ammo ≠ s.Ammo)
  | _ => false

/-- Number of ammo-consuming shots in a sequence of events started in state `s`, up to and
including an event that ends on the null dereference of line 239. -/
def ammoShots (s : State) : List Event → Nat
  | [] => 0
  | e :: es =>
    (if consumesAmmo s e then 1 else 0) +
      (if crashes s e then 0 else ammoShots (step s e) es)

/-- Number of `OnCanShootTimerEnd` events in a sequence. -/
def canShootTimerEnds (es : List Event) : Nat :=
  es.count Event.OnCanShootTimerEnd

/-- The damage values of a sequence of events are all non-negative. -/
def damageNonneg : List Event → Prop
  | [] => True
  | Event.OnTakeAnyDamage Damage :: es => 0 ≤ Damage ∧ damageNonneg es
  | _ :: es => damageNonneg es

/-- The state of a character after it received, one after the other, the hits of shots
whose random draws are `draws`: each shot calls `ApplyDamage` with `RandRange(5, 10)`
(lines 225-226), which the engine delivers to `OnTakeAnyDamageHandler` as a `float`. -/
def receiveHits (s : State) : List Nat → State
  | [] => s
  | d :: ds => receiveHits (OnTakeAnyDamageHandler s ((RandRange 5 10 d : Int) : ℚ)).1 ds

/-- The `ApplyDamage` requests of a list of effects. -/
def damageRequests (out : List Effect) : List (Nat × Int) :=
  out.filterMap fun e =>
    match e with
    | Effect.ApplyDamage a d => some (a, d)
    | _ => none

/-- The sounds multicast by a list of effects, in order. -/
def sounds (out : List Effect) : List Sound :=
  out.filterMap fun e =>
    match e with
    | Effect.Multicast_PlaySound x => some x
    | _ => none

/-- The timers set by a list of effects, in order. -/
def timers (out : List Effect) : List (TimerHandle × Callback × ℚ × Bool) :=
  out.filterMap fun e =>
    match e with
    | Effect.SetTimer h f r l => some (h, f, r, l)
    | _ => none

/-- The state after a sequence of `Tick` calls, each with its `HasAuthority()` and
`DeltaSeconds`. -/
def tickAll (s : State) : List (Bool × ℚ) → State
  | [] => s
  | t :: ts => tickAll (Tick s t.1 t.2) ts

/-- A character that died with an empty magazine one second before its respawn: dead,
unable to shoot, no health, no ammunition, able to reload. -/
def emptyCorpse : State :=
  { bCanReloadWeapon := true, bCanShoot := false, bJumping := false, bDead := true,
    PlayerName := "", Ammo := 0, MaxAmmo := 10, HP := 0, TimeBeforeRespawn := 1 }

/-- A world in which the line trace hits nothing. -/
def quietWorld : UWorld :=
  { HitActor := none, RandDraw := 0 }

/-- A living character that can shoot and has an empty magazine. -/
def emptyShooter : State :=
  { bCanReloadWeapon := true, bCanShoot := true, bJumping := false, bDead := false,
    PlayerName := "", Ammo := 0, MaxAmmo := 10, HP := 100, TimeBeforeRespawn := 0 }

/-- A sequence of events that leads a freshly spawned character to `emptyCorpse`: ten
shots that hit nothing, a hit of 100.0, and a tick of two seconds. -/
def corpseHistory : List Event :=
  [Event.Server_Shoot (some quietWorld), Event.OnCanShootTimerEnd,
   Event.Server_Shoot (some quietWorld), Event.OnCanShootTimerEnd,
   Event.Server_Shoot (some quietWorld), Event.OnCanShootTimerEnd,
   Event.Server_Shoot (some quietWorld), Event.OnCanShootTimerEnd,
   Event.Server_Shoot (some quietWorld), Event.OnCanShootTimerEnd,
   Event.Server_Shoot (some quietWorld), Event.OnCanShootTimerEnd,
   Event.Server_Shoot (some quietWorld), Event.OnCanShootTimerEnd,
   Event.Server_Shoot (some quietWorld), Event.OnCanShootTimerEnd,
   Event.Server_Shoot (some quietWorld), Event.OnCanShootTimerEnd,
   Event.Server_Shoot (some quietWorld),
   Event.OnTakeAnyDamage 100, Event.Tick true 2]

/-! ## Arithmetic of the embedding -/

theorem wrapInt32_eq_self {x : Int} (h : inInt32 x) : wrapInt32 x = x := by
  unfold inInt32 INT32_MIN INT32_MAX at h
  unfold wrapInt32
  omega

theorem castInt32_eq_trunc {q : ℚ} (h : inInt32 (truncToZero q)) :
    castInt32 q = truncToZero q := by
  simp [castInt32, h]

theorem truncToZero_nonneg {q : ℚ} (h : 0 ≤ q) : 0 ≤ truncToZero q := by
  unfold truncToZero
  exact Int.tdiv_nonneg (Rat.num_nonneg.mpr h) (Int.ofNat_nonneg _)

theorem truncToZero_intCast (n : Int) : truncToZero (n : ℚ) = n := by
  simp [truncToZero]

theorem castInt32_intCast {n : Int} (h : inInt32 n) : castInt32 (n : ℚ) = n := by
  rw [castInt32_eq_trunc] <;> simp [truncToZero_intCast, h]

theorem RandRange_5_10 (draw : Nat) : 5 ≤ RandRange 5 10 draw ∧ RandRange 5 10 draw ≤ 10 := by
  unfold RandRange RandHelper
  simp only [show (0 : Int) < 10 - 5 + 1 by decide, if_true]
  omega

/-- For a non-negative damage value and a health of `[0, 100]`, the new health of line 98
is `max (HP - d) 0` for some `d ≥ 0`, or `0`. -/
theorem damage_nonneg_HP {HP : Int} {Damage : ℚ} (h0 : 0 ≤ HP) (h1 : HP ≤ 100)
    (hD : 0 ≤ Damage) :
    0 ≤ max (wrapInt32 (HP - castInt32 Damage)) 0 ∧
      max (wrapInt32 (HP - castInt32 Damage)) 0 ≤ HP := by
  have ht := truncToZero_nonneg hD
  unfold castInt32
  split
  · rename_i hr
    unfold inInt32 INT32_MIN INT32_MAX at hr
    have hw : wrapInt32 (HP - truncToZero Damage) = HP - truncToZero Damage := by
      apply wrapInt32_eq_self
      unfold inInt32 INT32_MIN INT32_MAX
      omega
    rw [hw]
    omega
  · unfold wrapInt32 INT32_MIN
    omega

/-! ## Health and death -/

/-- The three shapes of the result of `OnTakeAnyDamageHandler`, by the new health. -/
theorem OnTakeAnyDamageHandler_eq (s : State) (Damage : ℚ) :
    OnTakeAnyDamageHandler s Damage =
      if max (wrapInt32 (s.HP - castInt32 Damage)) 0 ≤ 0 then
        ({ s with HP := max (wrapInt32 (s.HP - castInt32 Damage)) 0, bDead := true,
                  TimeBeforeRespawn := 3 },
          [Effect.SetTimer TimerHandle.RespawnTimerHandle Callback.OnRespawnTimerEnd 3 false,
           Effect.Multicast_Death])
      else
        ({ s with HP := max (wrapInt32 (s.HP - castInt32 Damage)) 0 }, []) := by
  unfold OnTakeAnyDamageHandler
  simp only []

/-- C1. Health: when the truncation `d` of the damage value is an `int32` and `HP - d`
does not overflow, `OnTakeAnyDamageHandler` sets `HP` to `max (HP - d) 0`; after the
handler `HP` is never negative; and the handler changes no gameplay member other than
`HP`, `bDead` and `TimeBeforeRespawn`. -/
theorem C1_health (s : State) (Damage : ℚ) :
    (inInt32 (truncToZero Damage) → inInt32 (s.HP - truncToZero Damage) →
      (OnTakeAnyDamageHandler s Damage).1.HP = max (s.HP - truncToZero Damage) 0) ∧
    0 ≤ (OnTakeAnyDamageHandler s Damage).1.HP ∧
    (OnTakeAnyDamageHandler s Damage).1.bCanReloadWeapon = s.bCanReloadWeapon ∧
    (OnTakeAnyDamageHandler s Damage).1.bCanShoot = s.bCanShoot ∧
    (OnTakeAnyDamageHandler s Damage).1.bJumping = s.bJumping ∧
    (OnTakeAnyDamageHandler s Damage).1.PlayerName = s.PlayerName ∧
    (OnTakeAnyDamageHandler s Damage).1.Ammo = s.Ammo ∧
    (OnTakeAnyDamageHandler s Damage).1.MaxAmmo = s.MaxAmmo := by
  rw [OnTakeAnyDamageHandler_eq]
  refine ⟨?_, ?_, ?_⟩
  · intro hd ho
    rw [castInt32_eq_trunc hd, wrapInt32_eq_self ho]
    split <;> rfl
  · split <;> exact le_max_right _ _
  · split <;> simp

/-- C1 at a full-health character hit for 7.0: the new health is 93. -/
theorem C1_health_witness :
    inInt32 (truncToZero 7) ∧ inInt32 ((BeginPlay constructed).HP - truncToZero 7) ∧
      (OnTakeAnyDamageHandler (BeginPlay constructed) 7).1.HP =
        max ((BeginPlay constructed).HP - truncToZero 7) 0 :=
  ⟨by decide, by decide, (C1_health (BeginPlay constructed) 7).1 (by decide) (by decide)⟩

/-- C2. Respawn on death: after `OnTakeAnyDamageHandler` the new `HP` is `0` or positive.
If it is `0`, `bDead` is true, `TimeBeforeRespawn` is `3.0`, and the handler issued exactly
one non-looping timer of `3.0` seconds targeting `OnRespawnTimerEnd` followed by
`Multicast_Death`. If it is positive, `bDead` and `TimeBeforeRespawn` are unchanged and
nothing is issued. -/
theorem C2_respawn_on_death (s : State) (Damage : ℚ) :
    ((OnTakeAnyDamageHandler s Damage).1.HP = 0 ∨ 0 < (OnTakeAnyDamageHandler s Damage).1.HP) ∧
    ((OnTakeAnyDamageHandler s Damage).1.HP = 0 →
      (OnTakeAnyDamageHandler s Damage).1.bDead = true ∧
      (OnTakeAnyDamageHandler s Damage).1.TimeBeforeRespawn = 3 ∧
      (OnTakeAnyDamageHandler s Damage).2 =
        [Effect.SetTimer TimerHandle.RespawnTimerHandle Callback.OnRespawnTimerEnd 3 false,
         Effect.Multicast_Death]) ∧
    (0 < (OnTakeAnyDamageHandler s Damage).1.HP →
      (OnTakeAnyDamageHandler s Damage).1.bDead = s.bDead ∧
      (OnTakeAnyDamageHandler s Damage).1.TimeBeforeRespawn = s.TimeBeforeRespawn ∧
      (OnTakeAnyDamageHandler s Damage).2 = []) := by
  rw [OnTakeAnyDamageHandler_eq]
  have h0 : 0 ≤ max (wrapInt32 (s.HP - castInt32 Damage)) 0 := le_max_right _ _
  split
  · rename_i h
    refine ⟨Or.inl (le_antisymm h h0), fun _ => ⟨rfl, rfl, rfl⟩, fun hp => ?_⟩
    exact absurd hp (not_lt.mpr h)
  · rename_i h
    refine ⟨Or.inr (not_le.mp h), fun hz => ?_, fun _ => ⟨rfl, rfl, rfl⟩⟩
    exact absurd (le_of_eq hz) h

/-- C2 at a full-health character: a hit of 100.0 kills it and schedules the respawn, a
hit of 7.0 changes neither `bDead` nor `TimeBeforeRespawn` and issues nothing. -/
theorem C2_respawn_on_death_witness :
    ((OnTakeAnyDamageHandler (BeginPlay constructed) 100).1.HP = 0 ∧
      (OnTakeAnyDamageHandler (BeginPlay constructed) 100).1.bDead = true ∧
      (OnTakeAnyDamageHandler (BeginPlay constructed) 100).1.TimeBeforeRespawn = 3 ∧
      (OnTakeAnyDamageHandler (BeginPlay constructed) 100).2 =
        [Effect.SetTimer TimerHandle.RespawnTimerHandle Callback.OnRespawnTimerEnd 3 false,
         Effect.Multicast_Death]) ∧
    (0 < (OnTakeAnyDamageHandler (BeginPlay constructed) 7).1.HP ∧
      (OnTakeAnyDamageHandler (BeginPlay constructed) 7).1.bDead =
        (BeginPlay constructed).bDead ∧
      (OnTakeAnyDamageHandler (BeginPlay constructed) 7).1.TimeBeforeRespawn =
        (BeginPlay constructed).TimeBeforeRespawn ∧
      (OnTakeAnyDamageHandler (BeginPlay constructed) 7).2 = []) :=
  ⟨⟨by decide, (C2_respawn_on_death (BeginPlay constructed) 100).2.1 (by decide)⟩,
    ⟨by decide, (C2_respawn_on_death (BeginPlay constructed) 7).2.2 (by decide)⟩⟩

/-! ## Shooting and reloading -/

/-- A shot that does not pass the guard of line 200 returns at once. -/
theorem Server_Shoot_blocked (s : State) (World : Option UWorld)
    (h : s.bDead = true ∨ s.bCanShoot = false) :
    Server_Shoot_Implementation s World = { state := s, out := [], nullDeref := false } := by
  unfold Server_Shoot_Implementation
  rcases h with h | h <;> simp [h]

/-- Every shot leaves `bCanShoot` false, unless it was blocked by a dead shooter. -/
theorem Server_Shoot_bCanShoot (s : State) (World : Option UWorld) (h : s.bDead = false) :
    (Server_Shoot_Implementation s World).state.bCanShoot = false := by
  unfold Server_Shoot_Implementation
  cases hc : s.bCanShoot <;> rcases World with _ | w <;> simp [h, hc]

/-- Past the guard of line 200, a null world ends the call on the dereference of line 239,
with no timer set; a world lets the call return. -/
theorem Server_Shoot_nullDeref (s : State) (World : Option UWorld) :
    (Server_Shoot_Implementation s World).nullDeref =
      (!s.bDead && s.bCanShoot && World.isNone) := by
  unfold Server_Shoot_Implementation
  cases hd : s.bDead <;> cases hc : s.bCanShoot <;> rcases World with _ | w <;> simp

/-- A shot changes the magazine only when it passes the guard with `Ammo > 0`. -/
theorem Server_Shoot_Ammo_ne (s : State) (World : Option UWorld)
    (h : (Server_Shoot_Implementation s World).state.Ammo ≠ s.Ammo) :
    s.bDead = false ∧ s.bCanShoot = true := by
  cases hd : s.bDead
  · cases hc : s.bCanShoot
    · exact absurd (by rw [Server_Shoot_blocked s World (Or.inr hc)]) h
    · exact ⟨rfl, rfl⟩
  · exact absurd (by rw [Server_Shoot_blocked s World (Or.inl hd)]) h

/-- C3. Shooting: with `bDead` false and `bCanShoot` true, in a world,
`Server_Shoot_Implementation` returns, takes one round and multicasts `ShootSound` (and no
other sound) when `Ammo > 0`, leaves `Ammo` unchanged and multicasts `NoAmmoSound` (and no
other sound) when `Ammo <= 0`; in both cases `bCanShoot` ends false and exactly one timer
is set, the last request of the call: non-looping, 0.2 seconds, targeting
`OnCanShootTimerEnd`; the shooter's `HP`, `bDead`, `MaxAmmo` and `bCanReloadWeapon` are
unchanged. -/
theorem C3_shooting (s : State) (w : UWorld)
    (hDead : s.bDead = false) (hCan : s.bCanShoot = true) :
    (Server_Shoot_Implementation s (some w)).nullDeref = false ∧
    (0 < s.Ammo →
      (Server_Shoot_Implementation s (some w)).state.Ammo = s.Ammo - 1 ∧
      sounds (Server_Shoot_Implementation s (some w)).out = [Sound.ShootSound]) ∧
    (s.Ammo ≤ 0 →
      (Server_Shoot_Implementation s (some w)).state.Ammo = s.Ammo ∧
      sounds (Server_Shoot_Implementation s (some w)).out = [Sound.NoAmmoSound]) ∧
    (Server_Shoot_Implementation s (some w)).state.bCanShoot = false ∧
    timers (Server_Shoot_Implementation s (some w)).out =
      [(TimerHandle.CanShootTimerHandle, Callback.OnCanShootTimerEnd, 1 / 5, false)] ∧
    (Server_Shoot_Implementation s (some w)).out.getLast? =
      some (Effect.SetTimer TimerHandle.CanShootTimerHandle Callback.OnCanShootTimerEnd
        (1 / 5) false) ∧
    (Server_Shoot_Implementation s (some w)).state.HP = s.HP ∧
    (Server_Shoot_Implementation s (some w)).state.bDead = s.bDead ∧
    (Server_Shoot_Implementation s (some w)).state.MaxAmmo = s.MaxAmmo ∧
    (Server_Shoot_Implementation s (some w)).state.bCanReloadWeapon = s.bCanReloadWeapon := by
  unfold Server_Shoot_Implementation
  by_cases hA : 0 < s.Ammo
  · have hA2 : ¬ s.Ammo ≤ 0 := not_le.mpr hA
    rcases hc : CastCharacter w.HitActor with _ | a <;>
      simp [hDead, hCan, hA, hA2, hc, sounds, timers]
  · have hA2 : s.Ammo ≤ 0 := not_lt.mp hA
    simp [hDead, hCan, hA, hA2, sounds, timers]

/-- C3 at a freshly spawned character whose trace hits character 1, and at the same
character with an empty magazine. -/
theorem C3_shooting_witness :
    ((BeginPlay constructed).bDead = false ∧ (BeginPlay constructed).bCanShoot = true ∧
      0 < (BeginPlay constructed).Ammo ∧
      (Server_Shoot_Implementation (BeginPlay constructed)
          (some ⟨some (Actor.TestShooterCharacter 1), 3⟩)).state.Ammo =
        (BeginPlay constructed).Ammo - 1 ∧
      sounds (Server_Shoot_Implementation (BeginPlay constructed)
          (some ⟨some (Actor.TestShooterCharacter 1), 3⟩)).out = [Sound.ShootSound]) ∧
    (emptyShooter.bDead = false ∧ emptyShooter.bCanShoot = true ∧ emptyShooter.Ammo ≤ 0 ∧
      (Server_Shoot_Implementation emptyShooter (some quietWorld)).state.Ammo =
        emptyShooter.Ammo ∧
      sounds (Server_Shoot_Implementation emptyShooter (some quietWorld)).out =
        [Sound.NoAmmoSound]) :=
  ⟨⟨by decide, by decide, by decide,
      (C3_shooting (BeginPlay constructed) ⟨some (Actor.TestShooterCharacter 1), 3⟩
        (by decide) (by decide)).2.1 (by decide)⟩,
    ⟨by decide, by decide, by decide,
      (C3_shooting emptyShooter quietWorld (by decide) (by decide)).2.2.1 (by decide)⟩⟩

/-- C4. Reloading: with `bCanReloadWeapon` true, `Server_ReloadWeapon_Implementation` sets
`Ammo` to `MaxAmmo` and `bCanReloadWeapon` to false, changes nothing else, multicasts
`ReloadWeaponSound` and sets a non-looping 1.0 second timer targeting
`OnCanReloadWeaponTimerEnd`, whatever `bDead` and `bCanShoot` are; with `bCanReloadWeapon`
false it changes no member and issues nothing. -/
theorem C4_reloading (s : State) :
    (s.bCanReloadWeapon = true →
      Server_ReloadWeapon_Implementation s =
        ({ s with Ammo := s.MaxAmmo, bCanReloadWeapon := false },
          [Effect.Multicast_PlaySound Sound.ReloadWeaponSound,
           Effect.SetTimer TimerHandle.CanReloadWeaponTimerHandle
             Callback.OnCanReloadWeaponTimerEnd 1 false])) ∧
    (s.bCanReloadWeapon = false → Server_ReloadWeapon_Implementation s = (s, [])) := by
  unfold Server_ReloadWeapon_Implementation
  constructor <;> intro h <;> simp [h]

/-- C4 at a dead character that cannot shoot and has an empty magazine: the reload still
fills the magazine, and a second reload before the timer ends does nothing. -/
theorem C4_reloading_witness :
    (emptyCorpse.bCanReloadWeapon = true ∧
      Server_ReloadWeapon_Implementation emptyCorpse =
        ({ emptyCorpse with Ammo := emptyCorpse.MaxAmmo, bCanReloadWeapon := false },
          [Effect.Multicast_PlaySound Sound.ReloadWeaponSound,
           Effect.SetTimer TimerHandle.CanReloadWeaponTimerHandle
             Callback.OnCanReloadWeaponTimerEnd 1 false])) ∧
    ((Server_ReloadWeapon_Implementation emptyCorpse).1.bCanReloadWeapon = false ∧
      Server_ReloadWeapon_Implementation (Server_ReloadWeapon_Implementation emptyCorpse).1 =
        ((Server_ReloadWeapon_Implementation emptyCorpse).1, [])) :=
  ⟨⟨by decide, (C4_reloading emptyCorpse).1 (by decide)⟩,
    ⟨by decide,
      (C4_reloading (Server_ReloadWeapon_Implementation emptyCorpse).1).2 (by decide)⟩⟩

/-! ## Fire-rate limit -/

/-- Only `OnCanShootTimerEnd` can make `bCanShoot` true. -/
theorem step_bCanShoot (s : State) (e : Event) (he : e ≠ Event.OnCanShootTimerEnd)
    (h : s.bCanShoot = false) : (step s e).bCanShoot = false := by
  cases e with
  | Server_Shoot World =>
    simp only [step]
    rw [Server_Shoot_blocked s World (Or.inr h)]
    exact h
  | Server_ReloadWeapon =>
    simp only [step, Server_ReloadWeapon_Implementation]
    split <;> exact h
  | OnCanShootTimerEnd => exact absurd rfl he
  | OnCanReloadWeaponTimerEnd => exact h
  | OnTakeAnyDamage Damage =>
    simp only [step]
    rw [OnTakeAnyDamageHandler_eq]
    split <;> exact h
  | Tick HasAuthority DeltaSeconds =>
    simp only [step, Tick]
    split <;> exact h
  | Server_ChangePlayerName NewName => exact h
  | Server_PlaySound x => exact h
  | OnRespawnTimerEnd GameMode =>
    simp only [step, OnRespawnTimerEnd]
    split <;> exact h
  | OnJumped => exact h
  | Landed => exact h

/-- While no `OnCanShootTimerEnd` runs, `bCanShoot` stays false. -/
theorem run_bCanShoot (es : List Event) :
    ∀ s : State, canShootTimerEnds es = 0 → s.bCanShoot = false →
      (run s es).bCanShoot = false := by
  induction es with
  | nil => intro s _ h; exact h
  | cons e es ih =>
    intro s hc h
    have hne : e ≠ Event.OnCanShootTimerEnd := by
      intro heq
      subst heq
      simp [canShootTimerEnds] at hc
    have hc2 : canShootTimerEnds es = 0 := by
      unfold canShootTimerEnds at hc ⊢
      rw [List.count_cons] at hc
      omega
    simp only [run]
    split
    · exact step_bCanShoot s e hne h
    · exact ih (step s e) hc2 (step_bCanShoot s e hne h)

/-- The ammo-consuming shots of a sequence are bounded by its `OnCanShootTimerEnd` events,
plus one when the character can shoot at the start. -/
theorem ammoShots_le (es : List Event) :
    ∀ s : State, ammoShots s es ≤ canShootTimerEnds es + (if s.bCanShoot = true then 1 else 0) := by
  induction es with
  | nil => intro s; simp [ammoShots]
  | cons e es ih =>
    intro s
    have hi := ih (step s e)
    have hrest : (if crashes s e = true then 0 else ammoShots (step s e) es) ≤
        canShootTimerEnds es + (if (step s e).bCanShoot = true then 1 else 0) := by
      split
      · exact Nat.zero_le _
      · exact hi
    have hone : (if (step s e).bCanShoot = true then 1 else 0) ≤ 1 := by split <;> omega
    by_cases he : e = Event.OnCanShootTimerEnd
    · subst he
      have hc : canShootTimerEnds (Event.OnCanShootTimerEnd :: es) = canShootTimerEnds es + 1 := by
        simp [canShootTimerEnds]
      have hcons : consumesAmmo s Event.OnCanShootTimerEnd = false := rfl
      rw [hc]
      simp only [ammoShots, hcons]
      simp only [Bool.false_eq_true, if_false]
      omega
    · have hc : canShootTimerEnds (e :: es) = canShootTimerEnds es := by
        unfold canShootTimerEnds
        rw [List.count_cons]
        have : (e == Event.OnCanShootTimerEnd) = false := by simpa using he
        simp [this]
      rw [hc]
      simp only [ammoShots]
      by_cases hcons : consumesAmmo s e = true
      · -- the event is a shot that passed the guard
        cases e with
        | Server_Shoot World =>
          have hne : (Server_Shoot_Implementation s World).state.Ammo ≠ s.Ammo := by
            simpa [consumesAmmo] using hcons
          obtain ⟨hd, hcs⟩ := Server_Shoot_Ammo_ne s World hne
          have hoff : (step s (Event.Server_Shoot World)).bCanShoot = false :=
            Server_Shoot_bCanShoot s World hd
          rw [hoff] at hrest
          simp only [Bool.false_eq_true, if_false] at hrest
          simp only [hcons, hcs, if_true]
          omega
        | _ => simp [consumesAmmo] at hcons
      · simp only [hcons, Bool.false_eq_true, if_false]
        cases hb : s.bCanShoot
        · have hoff := step_bCanShoot s e he hb
          rw [hoff] at hrest
          simp only [Bool.false_eq_true, if_false] at hrest ⊢
          omega
        · simp only [if_true]
          omega

/-- C5. Shot guard and fire-rate limit: with `bDead` true or `bCanShoot` false,
`Server_Shoot_Implementation` returns with no member changed and nothing issued; after a
shot that passed the guard, every `Server_Shoot` that follows a sequence of events without
`OnCanShootTimerEnd` is such a no-op; and in every sequence of events from every state the
number of ammo-consuming shots is at most the number of `OnCanShootTimerEnd` events plus
one. -/
theorem C5_fire_rate_limit :
    (∀ (s : State) (World : Option UWorld), s.bDead = true ∨ s.bCanShoot = false →
      Server_Shoot_Implementation s World = { state := s, out := [], nullDeref := false }) ∧
    (∀ (s : State) (World World2 : Option UWorld) (es : List Event),
      s.bDead = false → s.bCanShoot = true → canShootTimerEnds es = 0 →
      Server_Shoot_Implementation (run (Server_Shoot_Implementation s World).state es) World2 =
        { state := run (Server_Shoot_Implementation s World).state es, out := [],
          nullDeref := false }) ∧
    (∀ (s : State) (es : List Event), ammoShots s es ≤ canShootTimerEnds es + 1) := by
  refine ⟨Server_Shoot_blocked, ?_, ?_⟩
  · intro s World World2 es hd _ hes
    apply Server_Shoot_blocked
    exact Or.inr (run_bCanShoot es _ hes (Server_Shoot_bCanShoot s World hd))
  · intro s es
    have h := ammoShots_le es s
    have : (if s.bCanShoot = true then 1 else 0) ≤ 1 := by split <;> omega
    omega

/-- C5 on a freshly spawned character: a dead copy of it cannot shoot, a second shot
right after a reload is a no-op, and two shots around one timer end both consume ammo. -/
theorem C5_fire_rate_limit_witness :
    Server_Shoot_Implementation emptyCorpse (some quietWorld) =
      { state := emptyCorpse, out := [], nullDeref := false } ∧
    Server_Shoot_Implementation
        (run (Server_Shoot_Implementation (BeginPlay constructed) (some quietWorld)).state
          [Event.Server_ReloadWeapon]) (some quietWorld) =
      { state := run (Server_Shoot_Implementation (BeginPlay constructed)
                  (some quietWorld)).state [Event.Server_ReloadWeapon],
        out := [], nullDeref := false } ∧
    ammoShots (BeginPlay constructed)
        [Event.Server_Shoot (some quietWorld), Event.Server_Shoot (some quietWorld),
         Event.OnCanShootTimerEnd, Event.Server_Shoot (some quietWorld)] ≤
      canShootTimerEnds
        [Event.Server_Shoot (some quietWorld), Event.Server_Shoot (some quietWorld),
         Event.OnCanShootTimerEnd, Event.Server_Shoot (some quietWorld)] + 1 :=
  ⟨C5_fire_rate_limit.1 emptyCorpse (some quietWorld) (Or.inl (by decide)),
    C5_fire_rate_limit.2.1 (BeginPlay constructed) (some quietWorld) (some quietWorld)
      [Event.Server_ReloadWeapon] (by decide) (by decide) (by decide),
    C5_fire_rate_limit.2.2 (BeginPlay constructed) _⟩

/-! ## Damage per shot -/

/-- One hit of a shot on a character whose health is in `[0, 100]`. -/
theorem hit_step (s : State) (draw : Nat) (h0 : 0 ≤ s.HP) (h1 : s.HP ≤ 100) :
    (OnTakeAnyDamageHandler s ((RandRange 5 10 draw : Int) : ℚ)).1.HP =
        max (s.HP - RandRange 5 10 draw) 0 ∧
      (0 < (OnTakeAnyDamageHandler s ((RandRange 5 10 draw : Int) : ℚ)).1.HP →
        (OnTakeAnyDamageHandler s ((RandRange 5 10 draw : Int) : ℚ)).1.bDead = s.bDead) ∧
      ((OnTakeAnyDamageHandler s ((RandRange 5 10 draw : Int) : ℚ)).1.HP = 0 →
        (OnTakeAnyDamageHandler s ((RandRange 5 10 draw : Int) : ℚ)).1.bDead = true) := by
  obtain ⟨hlo, hhi⟩ := RandRange_5_10 draw
  have hc : castInt32 ((RandRange 5 10 draw : Int) : ℚ) = RandRange 5 10 draw := by
    apply castInt32_intCast
    unfold inInt32 INT32_MIN INT32_MAX
    omega
  have hw : wrapInt32 (s.HP - RandRange 5 10 draw) = s.HP - RandRange 5 10 draw := by
    apply wrapInt32_eq_self
    unfold inInt32 INT32_MIN INT32_MAX
    omega
  rw [OnTakeAnyDamageHandler_eq, hc, hw]
  split
  · rename_i h
    refine ⟨rfl, fun hp => ?_, fun _ => rfl⟩
    dsimp only at hp
    omega
  · rename_i h
    refine ⟨rfl, fun _ => rfl, fun hz => ?_⟩
    dsimp only at hz
    omega

/-- Health and death after a sequence of hits on a character whose health is in
`[0, 100]`: each hit takes between 5 and 10 points until the health is 0. -/
theorem receiveHits_bounds (draws : List Nat) :
    ∀ s : State, 0 ≤ s.HP → s.HP ≤ 100 →
      s.HP - 10 * draws.length ≤ (receiveHits s draws).HP ∧
      (receiveHits s draws).HP ≤ max (s.HP - 5 * draws.length) 0 ∧
      0 ≤ (receiveHits s draws).HP ∧
      (0 < (receiveHits s draws).HP → (receiveHits s draws).bDead = s.bDead) ∧
      (draws ≠ [] → (receiveHits s draws).HP = 0 → (receiveHits s draws).bDead = true) := by
  induction draws with
  | nil =>
    intro s h0 h1
    simp only [receiveHits, List.length_nil]
    refine ⟨by omega, by omega, h0, fun _ => trivial, fun h => absurd rfl h⟩
  | cons d ds ih =>
    intro s h0 h1
    obtain ⟨hlo, hhi⟩ := RandRange_5_10 d
    obtain ⟨hHP, hpos, hzero⟩ := hit_step s d h0 h1
    have g0 : 0 ≤ (OnTakeAnyDamageHandler s ((RandRange 5 10 d : Int) : ℚ)).1.HP := by
      rw [hHP]; omega
    have g1 : (OnTakeAnyDamageHandler s ((RandRange 5 10 d : Int) : ℚ)).1.HP ≤ 100 := by
      rw [hHP]; omega
    obtain ⟨a1, a2, a3, a4, a5⟩ :=
      ih (OnTakeAnyDamageHandler s ((RandRange 5 10 d : Int) : ℚ)).1 g0 g1
    simp only [receiveHits, List.length_cons]
    rw [hHP] at a1 a2
    refine ⟨by push_cast; omega, by push_cast; omega, a3, ?_, ?_⟩
    · intro hp
      rw [a4 hp]
      apply hpos
      rw [hHP]
      omega
    · intro _ hz
      cases ds with
      | nil => exact hzero hz
      | cons d2 ds2 => exact a5 (List.cons_ne_nil _ _) hz

/-- The requests of one call of `Server_Shoot_Implementation`, by the case the call is
in. -/
theorem Server_Shoot_damageRequests (s : State) (World : Option UWorld) :
    damageRequests (Server_Shoot_Implementation s World).out =
      if s.bDead = false ∧ s.bCanShoot = true ∧ 0 < s.Ammo then
        match World with
        | some w =>
          match w.HitActor with
          | some (Actor.TestShooterCharacter a) => [(a, RandRange 5 10 w.RandDraw)]
          | _ => []
        | none => []
      else [] := by
  unfold Server_Shoot_Implementation
  cases hd : s.bDead <;> cases hc : s.bCanShoot <;> simp [damageRequests]
  by_cases hA : 0 < s.Ammo
  · rcases World with _ | ⟨hit, r⟩
    · simp [hA]
    · rcases hit with _ | a
      · simp [hA, CastCharacter]
      · cases a <;> simp [hA, CastCharacter]
  · rcases World with _ | w <;> simp [hA]

theorem mem_damageRequests (out : List Effect) (a : Nat) (d : Int) :
    Effect.ApplyDamage a d ∈ out ↔ (a, d) ∈ damageRequests out := by
  unfold damageRequests
  rw [List.mem_filterMap]
  constructor
  · intro h
    exact ⟨_, h, rfl⟩
  · rintro ⟨e, he, hx⟩
    cases e <;> simp at hx
    obtain ⟨rfl, rfl⟩ := hx
    exact he

/-- C6. Damage per shot: one call of `Server_Shoot_Implementation` requests `ApplyDamage`
at most once, and only when the shooter passed the guard with `Ammo > 0` and the line trace
hit an `ATestShooterCharacter`, which is then the damaged actor, with an integer amount in
`[5, 10]`. A character whose health is 100 and that is not dead still has positive health
and is not dead after at most 9 such hits, and has health 0 with `bDead` true after 20 or
more. -/
theorem C6_damage_per_shot :
    (∀ (s : State) (World : Option UWorld),
      (damageRequests (Server_Shoot_Implementation s World).out).length ≤ 1 ∧
      ∀ (a : Nat) (d : Int), Effect.ApplyDamage a d ∈ (Server_Shoot_Implementation s World).out →
        s.bDead = false ∧ s.bCanShoot = true ∧ 0 < s.Ammo ∧
        (∃ w, World = some w ∧ w.HitActor = some (Actor.TestShooterCharacter a)) ∧
        5 ≤ d ∧ d ≤ 10) ∧
    (∀ (s : State) (draws : List Nat), s.HP = 100 → s.bDead = false → draws.length ≤ 9 →
      0 < (receiveHits s draws).HP ∧ (receiveHits s draws).bDead = false) ∧
    (∀ (s : State) (draws : List Nat), s.HP = 100 → 20 ≤ draws.length →
      (receiveHits s draws).HP = 0 ∧ (receiveHits s draws).bDead = true) := by
  refine ⟨?_, ?_, ?_⟩
  · intro s World
    constructor
    · rw [Server_Shoot_damageRequests]
      split
      · split
        · split <;> simp
        · simp
      · simp
    · intro a d h
      rw [mem_damageRequests, Server_Shoot_damageRequests] at h
      split at h
      · rename_i hg
        obtain ⟨hd, hc, hA⟩ := hg
        rcases World with _ | ⟨hit, r⟩
        · simp at h
        · rcases hit with _ | t
          · simp at h
          · cases t with
            | TestShooterCharacter b =>
              simp at h
              obtain ⟨rfl, rfl⟩ := h
              obtain ⟨hlo, hhi⟩ := RandRange_5_10 r
              exact ⟨hd, hc, hA, ⟨_, rfl, rfl⟩, hlo, hhi⟩
            | Other b => simp at h
      · simp at h
  · intro s draws hHP hD hlen
    obtain ⟨a1, _, _, a4, _⟩ := receiveHits_bounds draws s (by omega) (by omega)
    have hpos : 0 < (receiveHits s draws).HP := by omega
    exact ⟨hpos, by rw [a4 hpos, hD]⟩
  · intro s draws hHP hlen
    obtain ⟨_, a2, a3, _, a5⟩ := receiveHits_bounds draws s (by omega) (by omega)
    have hz : (receiveHits s draws).HP = 0 := by omega
    refine ⟨hz, a5 ?_ hz⟩
    intro hnil
    rw [hnil] at hlen
    simp at hlen

/-- C6 on a freshly spawned character: a shot whose trace hits character 1 with draw 3
requests 8 points of damage, 9 hits leave a target alive, 20 hits kill it. -/
theorem C6_damage_per_shot_witness :
    ((BeginPlay constructed).bDead = false ∧ (BeginPlay constructed).bCanShoot = true ∧
      0 < (BeginPlay constructed).Ammo ∧
      (∃ w, some (UWorld.mk (some (Actor.TestShooterCharacter 1)) 3) = some w ∧
        w.HitActor = some (Actor.TestShooterCharacter 1)) ∧
      5 ≤ (8 : Int) ∧ (8 : Int) ≤ 10) ∧
    (0 < (receiveHits (BeginPlay constructed) [5, 5, 5, 5, 5, 5, 5, 5, 5]).HP ∧
      (receiveHits (BeginPlay constructed) [5, 5, 5, 5, 5, 5, 5, 5, 5]).bDead = false) ∧
    ((receiveHits (BeginPlay constructed) (List.replicate 20 0)).HP = 0 ∧
      (receiveHits (BeginPlay constructed) (List.replicate 20 0)).bDead = true) :=
  ⟨(C6_damage_per_shot.1 (BeginPlay constructed)
      (some (UWorld.mk (some (Actor.TestShooterCharacter 1)) 3))).2 1 8 (by decide),
    C6_damage_per_shot.2.1 (BeginPlay constructed) [5, 5, 5, 5, 5, 5, 5, 5, 5]
      (by decide) (by decide) (by decide),
    C6_damage_per_shot.2.2 (BeginPlay constructed) (List.replicate 20 0)
      (by decide) (by decide)⟩

/-! ## Respawn countdown -/

/-- One `Tick` in a state with a non-negative countdown and a non-negative
`DeltaSeconds`. -/
theorem Tick_bounds (s : State) (HasAuthority : Bool) (DeltaSeconds : ℚ)
    (hd : 0 ≤ DeltaSeconds) (h0 : 0 ≤ s.TimeBeforeRespawn) :
    0 ≤ (Tick s HasAuthority DeltaSeconds).TimeBeforeRespawn ∧
      (Tick s HasAuthority DeltaSeconds).TimeBeforeRespawn ≤ s.TimeBeforeRespawn := by
  unfold Tick
  split
  · dsimp only
    exact ⟨le_max_right _ _, max_le (by linarith) h0⟩
  · exact ⟨h0, le_refl _⟩

/-- A sequence of `Tick` calls with non-negative `DeltaSeconds`. -/
theorem tickAll_bounds (ts : List (Bool × ℚ)) :
    ∀ s : State, (∀ t ∈ ts, 0 ≤ t.2) → 0 ≤ s.TimeBeforeRespawn →
      0 ≤ (tickAll s ts).TimeBeforeRespawn ∧
      (tickAll s ts).TimeBeforeRespawn ≤ s.TimeBeforeRespawn := by
  induction ts with
  | nil => intro s _ h0; exact ⟨h0, le_refl _⟩
  | cons t ts ih =>
    intro s ht h0
    obtain ⟨b0, b1⟩ := Tick_bounds s t.1 t.2 (ht t (List.mem_cons_self _ _)) h0
    obtain ⟨c0, c1⟩ := ih (Tick s t.1 t.2) (fun u hu => ht u (List.mem_cons_of_mem _ hu)) b0
    exact ⟨c0, le_trans c1 b1⟩

/-- C7. Respawn countdown: `Tick` sets `TimeBeforeRespawn` to
`max (TimeBeforeRespawn - DeltaSeconds) 0` when the character has authority, `bDead` is
true and `TimeBeforeRespawn > 0`, and leaves it unchanged otherwise; it changes no other
member; for `DeltaSeconds >= 0` and a countdown that starts non-negative, the countdown
stays non-negative and does not increase, after one `Tick` and after any sequence of
them. -/
theorem C7_respawn_countdown (s : State) (HasAuthority : Bool) (DeltaSeconds : ℚ) :
    (HasAuthority = true ∧ s.bDead = true ∧ 0 < s.TimeBeforeRespawn →
      (Tick s HasAuthority DeltaSeconds).TimeBeforeRespawn =
        max (s.TimeBeforeRespawn - DeltaSeconds) 0) ∧
    (¬ (HasAuthority = true ∧ s.bDead = true ∧ 0 < s.TimeBeforeRespawn) →
      (Tick s HasAuthority DeltaSeconds).TimeBeforeRespawn = s.TimeBeforeRespawn) ∧
    Tick s HasAuthority DeltaSeconds =
      { s with TimeBeforeRespawn := (Tick s HasAuthority DeltaSeconds).TimeBeforeRespawn } ∧
    (0 ≤ DeltaSeconds → 0 ≤ s.TimeBeforeRespawn →
      0 ≤ (Tick s HasAuthority DeltaSeconds).TimeBeforeRespawn ∧
      (Tick s HasAuthority DeltaSeconds).TimeBeforeRespawn ≤ s.TimeBeforeRespawn) ∧
    (∀ ts : List (Bool × ℚ), (∀ t ∈ ts, 0 ≤ t.2) → 0 ≤ s.TimeBeforeRespawn →
      0 ≤ (tickAll s ts).TimeBeforeRespawn ∧
      (tickAll s ts).TimeBeforeRespawn ≤ s.TimeBeforeRespawn) := by
  refine ⟨?_, ?_, ?_, Tick_bounds s HasAuthority DeltaSeconds, fun ts => tickAll_bounds ts s⟩
  · rintro ⟨ha, hd, ht⟩
    simp [Tick, ha, hd, ht]
  · intro h
    unfold Tick
    split
    · rename_i hc
      simp only [Bool.and_eq_true, decide_eq_true_eq] at hc
      exact absurd ⟨hc.1.1, hc.1.2, hc.2⟩ h
    · rfl
  · unfold Tick
    split <;> rfl

/-- C7 on a corpse with one second left: a tick of two seconds brings the countdown
to `max (1 - 2) 0`, which is neither negative nor above the second that was left; a tick
without authority leaves the countdown alone. -/
theorem C7_respawn_countdown_witness :
    ((true = true ∧ emptyCorpse.bDead = true ∧ 0 < emptyCorpse.TimeBeforeRespawn) ∧
      (Tick emptyCorpse true 2).TimeBeforeRespawn =
        max (emptyCorpse.TimeBeforeRespawn - 2) 0) ∧
    (Tick emptyCorpse false 2).TimeBeforeRespawn = emptyCorpse.TimeBeforeRespawn ∧
    (0 ≤ (Tick emptyCorpse true 2).TimeBeforeRespawn ∧
      (Tick emptyCorpse true 2).TimeBeforeRespawn ≤ emptyCorpse.TimeBeforeRespawn) :=
  ⟨⟨⟨rfl, rfl, by norm_num [emptyCorpse]⟩,
      (C7_respawn_countdown emptyCorpse true 2).1 ⟨rfl, rfl, by norm_num [emptyCorpse]⟩⟩,
    (C7_respawn_countdown emptyCorpse false 2).2.1 (by simp),
    (C7_respawn_countdown emptyCorpse true 2).2.2.2.1 (by norm_num)
      (by norm_num [emptyCorpse])⟩

/-! ## Invariants of the reachable states -/

/-- A shot leaves `MaxAmmo` alone and takes at most one round, never below zero. -/
theorem Server_Shoot_Ammo (s : State) (World : Option UWorld) :
    (Server_Shoot_Implementation s World).state.MaxAmmo = s.MaxAmmo ∧
      (Server_Shoot_Implementation s World).state.HP = s.HP ∧
      (Server_Shoot_Implementation s World).state.bDead = s.bDead ∧
      ((Server_Shoot_Implementation s World).state.Ammo = s.Ammo ∨
        (0 < s.Ammo ∧ (Server_Shoot_Implementation s World).state.Ammo = s.Ammo - 1)) := by
  unfold Server_Shoot_Implementation
  split
  · exact ⟨rfl, rfl, rfl, Or.inl rfl⟩
  · by_cases hA : 0 < s.Ammo
    · rcases World with _ | w
      · simp [hA]
      · simp [hA]
    · rcases World with _ | w <;> simp [hA]

/-- Every event keeps `0 <= Ammo <= MaxAmmo` and `MaxAmmo = 10`. -/
theorem step_ammo (s : State) (e : Event)
    (h : 0 ≤ s.Ammo ∧ s.Ammo ≤ s.MaxAmmo ∧ s.MaxAmmo = 10) :
    0 ≤ (step s e).Ammo ∧ (step s e).Ammo ≤ (step s e).MaxAmmo ∧ (step s e).MaxAmmo = 10 := by
  obtain ⟨h0, h1, h2⟩ := h
  cases e with
  | Server_Shoot World =>
    simp only [step]
    obtain ⟨hM, _, _, hA⟩ := Server_Shoot_Ammo s World
    rw [hM]
    rcases hA with hA | ⟨hpos, hA⟩ <;> rw [hA] <;> omega
  | Server_ReloadWeapon =>
    simp only [step, Server_ReloadWeapon_Implementation]
    split
    · dsimp only
      omega
    · exact ⟨h0, h1, h2⟩
  | OnCanShootTimerEnd => exact ⟨h0, h1, h2⟩
  | OnCanReloadWeaponTimerEnd => exact ⟨h0, h1, h2⟩
  | OnTakeAnyDamage Damage =>
    simp only [step]
    rw [OnTakeAnyDamageHandler_eq]
    split <;> exact ⟨h0, h1, h2⟩
  | Tick HasAuthority DeltaSeconds =>
    simp only [step, Tick]
    split <;> exact ⟨h0, h1, h2⟩
  | Server_ChangePlayerName NewName => exact ⟨h0, h1, h2⟩
  | Server_PlaySound x => exact ⟨h0, h1, h2⟩
  | OnRespawnTimerEnd GameMode =>
    simp only [step, OnRespawnTimerEnd]
    split <;> exact ⟨h0, h1, h2⟩
  | OnJumped => exact ⟨h0, h1, h2⟩
  | Landed => exact ⟨h0, h1, h2⟩

/-- No event makes a dead character alive. -/
theorem step_bDead (s : State) (e : Event) (h : s.bDead = true) : (step s e).bDead = true := by
  cases e with
  | Server_Shoot World =>
    simp only [step]
    rw [(Server_Shoot_Ammo s World).2.2.1]
    exact h
  | Server_ReloadWeapon =>
    simp only [step, Server_ReloadWeapon_Implementation]
    split <;> exact h
  | OnCanShootTimerEnd => exact h
  | OnCanReloadWeaponTimerEnd => exact h
  | OnTakeAnyDamage Damage =>
    simp only [step]
    rw [OnTakeAnyDamageHandler_eq]
    split
    · rfl
    · exact h
  | Tick HasAuthority DeltaSeconds =>
    simp only [step, Tick]
    split <;> exact h
  | Server_ChangePlayerName NewName => exact h
  | Server_PlaySound x => exact h
  | OnRespawnTimerEnd GameMode =>
    simp only [step, OnRespawnTimerEnd]
    split <;> exact h
  | OnJumped => exact h
  | Landed => exact h

/-- Every event other than a hit with a negative damage value keeps `0 <= HP <= 100` and
`bDead` true exactly when `HP = 0`. -/
theorem step_health (s : State) (e : Event) (he : damageNonneg [e])
    (h : 0 ≤ s.HP ∧ s.HP ≤ 100 ∧ (s.bDead = true ↔ s.HP = 0)) :
    0 ≤ (step s e).HP ∧ (step s e).HP ≤ 100 ∧ ((step s e).bDead = true ↔ (step s e).HP = 0) := by
  obtain ⟨h0, h1, h2⟩ := h
  cases e with
  | Server_Shoot World =>
    simp only [step]
    obtain ⟨_, hH, hD, _⟩ := Server_Shoot_Ammo s World
    rw [hH, hD]
    exact ⟨h0, h1, h2⟩
  | Server_ReloadWeapon =>
    simp only [step, Server_ReloadWeapon_Implementation]
    split <;> exact ⟨h0, h1, h2⟩
  | OnCanShootTimerEnd => exact ⟨h0, h1, h2⟩
  | OnCanReloadWeaponTimerEnd => exact ⟨h0, h1, h2⟩
  | OnTakeAnyDamage Damage =>
    have hD : 0 ≤ Damage := by
      simp only [damageNonneg] at he
      exact he.1
    obtain ⟨b0, b1⟩ := damage_nonneg_HP h0 h1 hD
    simp only [step]
    rw [OnTakeAnyDamageHandler_eq]
    split
    · rename_i hz
      dsimp only
      refine ⟨b0, le_trans b1 h1, fun _ => le_antisymm hz b0, fun _ => rfl⟩
    · rename_i hz
      dsimp only
      refine ⟨b0, le_trans b1 h1, fun hd => ?_, fun hz2 => ?_⟩
      · have := h2.mp hd
        omega
      · omega
  | Tick HasAuthority DeltaSeconds =>
    simp only [step, Tick]
    split <;> exact ⟨h0, h1, h2⟩
  | Server_ChangePlayerName NewName => exact ⟨h0, h1, h2⟩
  | Server_PlaySound x => exact ⟨h0, h1, h2⟩
  | OnRespawnTimerEnd GameMode =>
    simp only [step, OnRespawnTimerEnd]
    split <;> exact ⟨h0, h1, h2⟩
  | OnJumped => exact ⟨h0, h1, h2⟩
  | Landed => exact ⟨h0, h1, h2⟩

theorem damageNonneg_cons (e : Event) (es : List Event) (h : damageNonneg (e :: es)) :
    damageNonneg [e] ∧ damageNonneg es := by
  cases e <;> simp_all [damageNonneg]

theorem run_ammo (es : List Event) :
    ∀ s : State, 0 ≤ s.Ammo ∧ s.Ammo ≤ s.MaxAmmo ∧ s.MaxAmmo = 10 →
      0 ≤ (run s es).Ammo ∧ (run s es).Ammo ≤ (run s es).MaxAmmo ∧ (run s es).MaxAmmo = 10 := by
  induction es with
  | nil => intro s h; exact h
  | cons e es ih =>
    intro s h
    simp only [run]
    split
    · exact step_ammo s e h
    · exact ih (step s e) (step_ammo s e h)

theorem run_health (es : List Event) :
    ∀ s : State, damageNonneg es → 0 ≤ s.HP ∧ s.HP ≤ 100 ∧ (s.bDead = true ↔ s.HP = 0) →
      0 ≤ (run s es).HP ∧ (run s es).HP ≤ 100 ∧ ((run s es).bDead = true ↔ (run s es).HP = 0) := by
  induction es with
  | nil => intro s _ h; exact h
  | cons e es ih =>
    intro s hd h
    obtain ⟨hd1, hd2⟩ := damageNonneg_cons e es hd
    simp only [run]
    split
    · exact step_health s e hd1 h
    · exact ih (step s e) hd2 (step_health s e hd1 h)

/-- C8. Ammo bounds invariant: in every state reached from the state `BeginPlay`
establishes by any sequence of events, `0 <= Ammo <= MaxAmmo` and `MaxAmmo = 10`. -/
theorem C8_ammo_bounds (s0 : State) (es : List Event) :
    ((BeginPlay s0).MaxAmmo = 10 ∧ (BeginPlay s0).Ammo = 10 ∧ (BeginPlay s0).HP = 100 ∧
      (BeginPlay s0).bCanShoot = true ∧ (BeginPlay s0).bCanReloadWeapon = true) ∧
    0 ≤ (run (BeginPlay s0) es).Ammo ∧
    (run (BeginPlay s0) es).Ammo ≤ (run (BeginPlay s0) es).MaxAmmo ∧
    (run (BeginPlay s0) es).MaxAmmo = 10 :=
  ⟨⟨rfl, rfl, rfl, rfl, rfl⟩,
    run_ammo es (BeginPlay s0)
      ⟨show (0 : Int) ≤ 10 by decide, show (10 : Int) ≤ 10 by decide, rfl⟩⟩

/-- One `Tick` with a non-negative `DeltaSeconds` does not increase the countdown. -/
theorem Tick_le (s : State) (HasAuthority : Bool) (DeltaSeconds : ℚ) (hd : 0 ≤ DeltaSeconds) :
    (Tick s HasAuthority DeltaSeconds).TimeBeforeRespawn ≤ s.TimeBeforeRespawn := by
  unfold Tick
  split
  · rename_i hc
    simp only [Bool.and_eq_true, decide_eq_true_eq] at hc
    dsimp only
    exact max_le (by linarith) (le_of_lt hc.2)
  · exact le_refl _

/-- A shot leaves the countdown alone. -/
theorem Server_Shoot_TimeBeforeRespawn (s : State) (World : Option UWorld) :
    (Server_Shoot_Implementation s World).state.TimeBeforeRespawn = s.TimeBeforeRespawn := by
  unfold Server_Shoot_Implementation
  split
  · rfl
  · by_cases hA : 0 < s.Ammo <;> rcases World with _ | w <;> simp [hA]

/-- No event other than a hit, with `DeltaSeconds >= 0` for a `Tick`, increases the
countdown. -/
theorem step_TimeBeforeRespawn_le (s : State) (e : Event)
    (hHit : ∀ Damage, e ≠ Event.OnTakeAnyDamage Damage)
    (hTick : ∀ HasAuthority DeltaSeconds, e = Event.Tick HasAuthority DeltaSeconds →
      0 ≤ DeltaSeconds) :
    (step s e).TimeBeforeRespawn ≤ s.TimeBeforeRespawn := by
  cases e with
  | Server_Shoot World =>
    simp only [step]
    rw [Server_Shoot_TimeBeforeRespawn]
  | Server_ReloadWeapon =>
    simp only [step, Server_ReloadWeapon_Implementation]
    split <;> exact le_refl _
  | OnCanShootTimerEnd => exact le_refl _
  | OnCanReloadWeaponTimerEnd => exact le_refl _
  | OnTakeAnyDamage Damage => exact absurd rfl (hHit Damage)
  | Tick HasAuthority DeltaSeconds =>
    exact Tick_le s HasAuthority DeltaSeconds (hTick HasAuthority DeltaSeconds rfl)
  | Server_ChangePlayerName NewName => exact le_refl _
  | Server_PlaySound x => exact le_refl _
  | OnRespawnTimerEnd GameMode =>
    simp only [step, OnRespawnTimerEnd]
    split <;> exact le_refl _
  | OnJumped => exact le_refl _
  | Landed => exact le_refl _

/-- C9 as stated fails on a corpse with one second left before its respawn, a state a
freshly spawned character reaches in a world: `bDead` is already true, and a hit of 5.0
sets `TimeBeforeRespawn` from 1.0 back to 3.0, sets the respawn timer again and issues
`Multicast_Death` again. -/
theorem C9_hit_on_corpse :
    run (BeginPlay constructed) corpseHistory = emptyCorpse ∧
    emptyCorpse.bDead = true ∧ emptyCorpse.TimeBeforeRespawn = 1 ∧
    (OnTakeAnyDamageHandler emptyCorpse 5).1.TimeBeforeRespawn = 3 ∧
    (OnTakeAnyDamageHandler emptyCorpse 5).1.TimeBeforeRespawn ≠
      emptyCorpse.TimeBeforeRespawn ∧
    (OnTakeAnyDamageHandler emptyCorpse 5).2 =
      [Effect.SetTimer TimerHandle.RespawnTimerHandle Callback.OnRespawnTimerEnd 3 false,
       Effect.Multicast_Death] ∧
    emptyCorpse.TimeBeforeRespawn <
      (step emptyCorpse (Event.OnTakeAnyDamage 5)).TimeBeforeRespawn := by
  have h3 : (OnTakeAnyDamageHandler emptyCorpse 5).1.TimeBeforeRespawn = 3 := by decide
  refine ⟨?_, by decide, by decide, h3, ?_, by decide, ?_⟩
  · simp [corpseHistory, quietWorld, run, step, crashes, BeginPlay, constructed,
      Server_Shoot_Implementation, CastCharacter, OnCanShootTimerEnd,
      OnTakeAnyDamageHandler, Tick, emptyCorpse, wrapInt32, castInt32,
      truncToZero, inInt32, INT32_MIN, INT32_MAX]
    norm_num
  · rw [h3]
    norm_num [emptyCorpse]
  · have h : (step emptyCorpse (Event.OnTakeAnyDamage 5)).TimeBeforeRespawn = 3 := h3
    rw [h]
    norm_num [emptyCorpse]

/-- C9, amended. Death is processed on every hit that leaves `HP` at 0. On a character
whose `bDead` is already true, `OnTakeAnyDamageHandler` keeps `bDead` true; when the new
`HP` is positive it leaves `TimeBeforeRespawn` unchanged and issues nothing; when the new
`HP` is 0 it sets `TimeBeforeRespawn` to 3.0, sets the respawn timer and issues
`Multicast_Death`, as on the first death. The new `HP` is 0 for every non-negative damage
value when `HP` was 0. Under every event other than a hit, with `DeltaSeconds >= 0` for a
`Tick`, a dead character stays dead and its `TimeBeforeRespawn` does not increase. -/
theorem C9_death_on_every_fatal_hit :
    (∀ (s : State) (Damage : ℚ), s.bDead = true →
      (OnTakeAnyDamageHandler s Damage).1.bDead = true ∧
      (0 < (OnTakeAnyDamageHandler s Damage).1.HP →
        (OnTakeAnyDamageHandler s Damage).1.TimeBeforeRespawn = s.TimeBeforeRespawn ∧
        (OnTakeAnyDamageHandler s Damage).2 = []) ∧
      ((OnTakeAnyDamageHandler s Damage).1.HP = 0 →
        (OnTakeAnyDamageHandler s Damage).1.TimeBeforeRespawn = 3 ∧
        (OnTakeAnyDamageHandler s Damage).2 =
          [Effect.SetTimer TimerHandle.RespawnTimerHandle Callback.OnRespawnTimerEnd 3 false,
           Effect.Multicast_Death])) ∧
    (∀ (s : State) (Damage : ℚ), s.HP = 0 → 0 ≤ Damage →
      (OnTakeAnyDamageHandler s Damage).1.HP = 0) ∧
    (∀ (s : State) (e : Event), s.bDead = true →
      (∀ Damage, e ≠ Event.OnTakeAnyDamage Damage) →
      (∀ HasAuthority DeltaSeconds, e = Event.Tick HasAuthority DeltaSeconds →
        0 ≤ DeltaSeconds) →
      (step s e).bDead = true ∧ (step s e).TimeBeforeRespawn ≤ s.TimeBeforeRespawn) := by
  refine ⟨?_, ?_, ?_⟩
  · intro s Damage hd
    rw [OnTakeAnyDamageHandler_eq]
    split
    · rename_i h
      refine ⟨rfl, fun hp => ?_, fun _ => ⟨rfl, rfl⟩⟩
      exact absurd hp (not_lt.mpr h)
    · rename_i h
      refine ⟨hd, fun _ => ⟨rfl, rfl⟩, fun hz => ?_⟩
      exact absurd (le_of_eq hz) h
  · intro s Damage hHP hD
    obtain ⟨b0, b1⟩ := damage_nonneg_HP (le_of_eq hHP.symm) (by rw [hHP]; decide) hD
    have b2 : max (wrapInt32 (s.HP - castInt32 Damage)) 0 ≤ 0 := le_trans b1 (le_of_eq hHP)
    rw [OnTakeAnyDamageHandler_eq]
    split <;> exact le_antisymm b2 b0
  · intro s e hd hHit hTick
    exact ⟨step_bDead s e hd, step_TimeBeforeRespawn_le s e hHit hTick⟩

/-- C9, amended, on a corpse with one second left: a hit of 5.0 leaves `HP` at 0 and
restarts the respawn; a tick of two seconds leaves it dead and does not increase the
countdown. -/
theorem C9_death_on_every_fatal_hit_witness :
    (emptyCorpse.bDead = true ∧ (OnTakeAnyDamageHandler emptyCorpse 5).1.HP = 0 ∧
      (OnTakeAnyDamageHandler emptyCorpse 5).1.TimeBeforeRespawn = 3 ∧
      (OnTakeAnyDamageHandler emptyCorpse 5).2 =
        [Effect.SetTimer TimerHandle.RespawnTimerHandle Callback.OnRespawnTimerEnd 3 false,
         Effect.Multicast_Death]) ∧
    (emptyCorpse.HP = 0 ∧ (0 : ℚ) ≤ 5 ∧ (OnTakeAnyDamageHandler emptyCorpse 5).1.HP = 0) ∧
    ((step emptyCorpse (Event.Tick true 2)).bDead = true ∧
      (step emptyCorpse (Event.Tick true 2)).TimeBeforeRespawn ≤
        emptyCorpse.TimeBeforeRespawn) :=
  ⟨⟨rfl, by decide,
      ((C9_death_on_every_fatal_hit.1 emptyCorpse 5 rfl).2.2 (by decide))⟩,
    ⟨rfl, by norm_num,
      C9_death_on_every_fatal_hit.2.1 emptyCorpse 5 rfl (by norm_num)⟩,
    C9_death_on_every_fatal_hit.2.2 emptyCorpse (Event.Tick true 2) rfl
      (fun _ h => Event.noConfusion h)
      (fun a dt h => by
        have h2 : (2 : ℚ) = dt := by injection h
        rw [← h2]
        norm_num)⟩

/-- C10. Dead-iff-zero-health invariant: in every state reached from the `BeginPlay` state
of a character that is not dead, by any sequence of events whose damage values are all
non-negative, `0 <= HP <= 100` and `bDead` is true exactly when `HP = 0`; and neither
`BeginPlay` nor any event sets `bDead` from true back to false. -/
theorem C10_dead_iff_zero_health :
    (∀ (s0 : State) (es : List Event), s0.bDead = false → damageNonneg es →
      0 ≤ (run (BeginPlay s0) es).HP ∧ (run (BeginPlay s0) es).HP ≤ 100 ∧
      ((run (BeginPlay s0) es).bDead = true ↔ (run (BeginPlay s0) es).HP = 0)) ∧
    (∀ s : State, (BeginPlay s).bDead = s.bDead) ∧
    (∀ (s : State) (e : Event), s.bDead = true → (step s e).bDead = true) := by
  refine ⟨?_, fun _ => rfl, step_bDead⟩
  intro s0 es hd hes
  apply run_health es (BeginPlay s0) hes
  refine ⟨show (0 : Int) ≤ 100 by decide, show (100 : Int) ≤ 100 by decide, ?_⟩
  have h1 : (BeginPlay s0).bDead = false := hd
  have h2 : (BeginPlay s0).HP = 100 := rfl
  rw [h1, h2]
  simp

/-- C10 on a freshly spawned character that is hit for 30.0, ticks, and is hit for 100.0;
and on a corpse, which a reload leaves dead. -/
theorem C10_dead_iff_zero_health_witness :
    (constructed.bDead = false ∧
      damageNonneg [Event.OnTakeAnyDamage 30, Event.Tick true 1, Event.OnTakeAnyDamage 100] ∧
      0 ≤ (run (BeginPlay constructed)
        [Event.OnTakeAnyDamage 30, Event.Tick true 1, Event.OnTakeAnyDamage 100]).HP ∧
      (run (BeginPlay constructed)
        [Event.OnTakeAnyDamage 30, Event.Tick true 1, Event.OnTakeAnyDamage 100]).HP ≤ 100 ∧
      ((run (BeginPlay constructed)
          [Event.OnTakeAnyDamage 30, Event.Tick true 1, Event.OnTakeAnyDamage 100]).bDead = true ↔
        (run (BeginPlay constructed)
          [Event.OnTakeAnyDamage 30, Event.Tick true 1, Event.OnTakeAnyDamage 100]).HP = 0)) ∧
    (emptyCorpse.bDead = true ∧
      (step emptyCorpse Event.Server_ReloadWeapon).bDead = true) :=
  ⟨⟨rfl, by simp [damageNonneg],
      C10_dead_iff_zero_health.1 constructed
        [Event.OnTakeAnyDamage 30, Event.Tick true 1, Event.OnTakeAnyDamage 100] rfl
        (by simp [damageNonneg])⟩,
    ⟨rfl, C10_dead_iff_zero_health.2.2 emptyCorpse Event.Server_ReloadWeapon rfl⟩⟩

end TestShooter
